import Mathlib

/-!
Verification of the bracket progression engine of the mascot-madness
repository.

The Python sources are shallowly embedded:

* `src/bracket.py` : `Team`, `Division`, `Bracket`, `ROUND_ONE_BRACKET`,
  `get_division_matchups`, `advance_round`, `get_final_four_matchups`,
  `get_championship_matchup`.
* `src/tournament.py` : the driver `_run_division_rounds`,
  `_run_single_division_round`, `_run_final_four_and_championship`, `run`.
* `src/fight_simulator.py` : the winner-validation cascade of
  `_parse_claude_response` and the deterministic `_mock_fight`.
* `src/fight_result.py` : `FightResult` and its `__post_init__` checks.

Python dictionaries are modelled as association lists (first match wins on
lookup; dict comprehensions overwrite, which `seedToTeam` reproduces with a
left fold).  Python exceptions (`KeyError`, `IndexError`, `ValueError`) are
modelled with `Except PyErr`.  The tournament driver additionally returns the
ordered list of decider invocations (the pairs of team names passed to
`simulate_fight`), which the claims about game counts quantify over.
-/

namespace MascotMadness

/-- `Team` from src/bracket.py: a name and a seed (1 best .. 16 worst). -/
structure Team where
  name : String
  seed : Nat
deriving DecidableEq, Inhabited

/-- `Division` from src/bracket.py: a name and the ordered team list. -/
structure Division where
  name : String
  teams : List Team
deriving DecidableEq

/-- `Bracket` from src/bracket.py: a dict from division name to `Division`,
modelled as an insertion-ordered association list. -/
structure Bracket where
  divisions : List (String × Division)
deriving DecidableEq

/-- Python exceptions raised by the embedded code. `nonTermination` is an
artefact of the fuel-based embedding of the `while` loop in
`_run_division_rounds`; it is proven unreachable in every run considered. -/
inductive PyErr where
  | keyError : String → PyErr
  | indexError : PyErr
  | valueError : String → PyErr
  | nonTermination : PyErr
deriving DecidableEq

instance {ε α : Type} [DecidableEq ε] [DecidableEq α] : DecidableEq (Except ε α) := fun a b =>
  match a, b with
  | Except.error e1, Except.error e2 =>
    decidable_of_iff (e1 = e2) ⟨fun h => by rw [h], fun h => by injection h⟩
  | Except.error _, Except.ok _ => isFalse (fun h => Except.noConfusion h)
  | Except.ok _, Except.error _ => isFalse (fun h => Except.noConfusion h)
  | Except.ok a1, Except.ok a2 =>
    decidable_of_iff (a1 = a2) ⟨fun h => by rw [h], fun h => by injection h⟩

/-- Association-list lookup, modelling Python `d[k]` (unique keys). -/
def alookup {α : Type} (k : String) : List (String × α) → Option α
  | [] => none
  | kv :: rest => if kv.1 = k then some kv.2 else alookup k rest

/-- `ROUND_ONE_BRACKET` from src/bracket.py line 13. -/
def ROUND_ONE_BRACKET : List (Nat × Nat) :=
  [(1, 16), (8, 9), (5, 12), (4, 13), (6, 11), (3, 14), (7, 10), (2, 15)]

/-- `FINAL_FOUR_PAIRS` from src/bracket.py line 4. -/
def FINAL_FOUR_PAIRS : List (String × String) :=
  [("West", "East"), ("South", "Midwest")]

/-- The dict comprehension from src/bracket.py line 64,
`{team.seed: team for team in teams}`, queried at seed `s`: later entries
overwrite earlier ones, so the lookup returns the last team with seed `s`. -/
def seedToTeam (teams : List Team) (s : Nat) : Option Team :=
  teams.foldl (fun acc t => if t.seed = s then some t else acc) none

/-- The list comprehension from src/bracket.py line 65: look both seeds of
every `ROUND_ONE_BRACKET` entry up in the seed dict; a missing seed raises
`KeyError`. -/
def mapMatchups (ts : List Team) : List (Nat × Nat) → Except PyErr (List (Team × Team))
  | [] => Except.ok []
  | p :: rest =>
    match seedToTeam ts p.1 with
    | none => Except.error (PyErr.keyError (toString p.1))
    | some t1 =>
      match seedToTeam ts p.2 with
      | none => Except.error (PyErr.keyError (toString p.2))
      | some t2 => (mapMatchups ts rest).map (fun ms => (t1, t2) :: ms)

/-- The consecutive-slot pairing loop from src/bracket.py lines 68-71:
`for i in range(0, n, 2): matchups.append((teams[i], teams[i+1]))`.
For a list of odd length the final iteration reads `teams[i+1]` past the end
and raises `IndexError` (note that `range(0, 1, 2)` contains `0`). -/
def pairSlots : List Team → Except PyErr (List (Team × Team))
  | [] => Except.ok []
  | [_] => Except.error PyErr.indexError
  | a :: b :: rest => (pairSlots rest).map (fun ms => (a, b) :: ms)

/-- `Bracket.get_division_matchups` from src/bracket.py lines 45-71. -/
def getDivisionMatchups (b : Bracket) (dname : String) : Except PyErr (List (Team × Team)) :=
  match alookup dname b.divisions with
  | none => Except.error (PyErr.keyError dname)
  | some d =>
    if d.teams.length = 16 then mapMatchups d.teams ROUND_ONE_BRACKET
    else pairSlots d.teams

/-- In-place mutation of one dict entry: the assignment on src/bracket.py
line 81 replaces the `teams` field of the division stored under `dname`. -/
def updKV (dname : String) (winners : List Team) (kv : String × Division) : String × Division :=
  if kv.1 = dname then (kv.1, Division.mk kv.2.name winners) else kv

/-- `Bracket.advance_round` from src/bracket.py lines 73-81:
`self.divisions[division_name].teams = list(winners)`. -/
def advanceRound (b : Bracket) (dname : String) (winners : List Team) : Except PyErr Bracket :=
  match alookup dname b.divisions with
  | none => Except.error (PyErr.keyError dname)
  | some _ => Except.ok (Bracket.mk (b.divisions.map (updKV dname winners)))

/-- The list comprehension of `get_final_four_matchups`
(src/bracket.py lines 90-93), iterating `FINAL_FOUR_PAIRS` and looking each
division name up in `region_winners`. -/
def ffGo (rw : List (String × Team)) : List (String × String) → Except PyErr (List (Team × Team))
  | [] => Except.ok []
  | p :: rest =>
    match alookup p.1 rw with
    | none => Except.error (PyErr.keyError p.1)
    | some t1 =>
      match alookup p.2 rw with
      | none => Except.error (PyErr.keyError p.2)
      | some t2 => (ffGo rw rest).map (fun ms => (t1, t2) :: ms)

/-- `Bracket.get_final_four_matchups` from src/bracket.py lines 83-93. -/
def getFinalFourMatchups (regionWinners : List (String × Team)) : Except PyErr (List (Team × Team)) :=
  ffGo regionWinners FINAL_FOUR_PAIRS

/-- `Bracket.get_championship_matchup` from src/bracket.py lines 95-105:
indexes `[0]` and `[1]` of the final-four winner list. -/
def getChampionshipMatchup (finalFourWinners : List Team) : Except PyErr (Team × Team) :=
  match finalFourWinners with
  | w1 :: w2 :: _ => Except.ok (w1, w2)
  | _ => Except.error PyErr.indexError

/-- `FightResult` from src/fight_result.py. -/
structure FightResult where
  winner : String
  loser : String
  win_probability : Int
  narrative : String
deriving DecidableEq

/-- The `__post_init__` validation of `FightResult` (src/fight_result.py
lines 11-21): constructing a `FightResult` raises `ValueError` on an
out-of-range probability or an empty field. -/
def FightResult.mkChecked (winner loser : String) (wp : Int) (narrative : String) :
    Except PyErr FightResult :=
  if wp < 0 ∨ 100 < wp then
    Except.error (PyErr.valueError "win_probability must be 0-100")
  else if winner = "" then Except.error (PyErr.valueError "winner cannot be empty")
  else if loser = "" then Except.error (PyErr.valueError "loser cannot be empty")
  else if narrative = "" then Except.error (PyErr.valueError "narrative cannot be empty")
  else Except.ok (FightResult.mk winner loser wp narrative)

/-- Python `str.lower()` (per-character lowercasing of the char list). -/
def pyLower (s : String) : String := String.mk (s.data.map Char.toLower)

/-- Python string comparison: lexicographic by code point on char lists. -/
def pyLtL : List Char → List Char → Bool
  | [], [] => false
  | [], _ :: _ => true
  | _ :: _, [] => false
  | a :: as, b :: bs => if a < b then true else if b < a then false else pyLtL as bs

/-- Python `a < b` on strings. -/
def pyLt (a b : String) : Bool := pyLtL a.data b.data

/-- Auxiliary for `pyIn`: does the first character list start the second? -/
def startsL : List Char → List Char → Bool
  | [], _ => true
  | _ :: _, [] => false
  | a :: as, b :: bs => a == b && startsL as bs

/-- Auxiliary for `pyIn`: contiguous-sublist test on character lists. -/
def subL (needle : List Char) : List Char → Bool
  | [] => needle.isEmpty
  | c :: rest => startsL needle (c :: rest) || subL needle rest

/-- Python substring containment `needle in haystack`, as used by the
fallback matching of `_parse_claude_response` (src/fight_simulator.py
lines 166-176). -/
def pyIn (needle haystack : String) : Bool := subL needle.data haystack.data

/-- The "winner matches this team loosely" condition: exact case-insensitive
equality or substring containment in either direction, the disjunction of
the tests `_parse_claude_response` applies to a single team name. -/
def looseMatchB (rawWinner t : String) : Bool :=
  (pyLower rawWinner == pyLower t) || pyIn (pyLower t) (pyLower rawWinner) ||
    pyIn (pyLower rawWinner) (pyLower t)

/-- The message of the `ValueError` raised on src/fight_simulator.py
lines 178-181 (the repr quoting of the f-string is elided). -/
def validationMsg (rawWinner team1 team2 : String) : String :=
  "Claude winner " ++ rawWinner ++ " is not one of the two teams: " ++
    team1 ++ " or " ++ team2

/-- The winner-validation cascade of `_parse_claude_response`
(src/fight_simulator.py lines 160-181): exact case-insensitive match on
either team, then substring fallback preferring `team1`, else `ValueError`. -/
def matchWinner (rawWinner team1 team2 : String) : Except PyErr (String × String) :=
  if pyLower rawWinner == pyLower team1 then Except.ok (team1, team2)
  else if pyLower rawWinner == pyLower team2 then Except.ok (team2, team1)
  else if pyIn (pyLower team1) (pyLower rawWinner) || pyIn (pyLower rawWinner) (pyLower team1) then
    Except.ok (team1, team2)
  else if pyIn (pyLower team2) (pyLower rawWinner) || pyIn (pyLower rawWinner) (pyLower team2) then
    Except.ok (team2, team1)
  else Except.error (PyErr.valueError (validationMsg rawWinner team1 team2))

/-- The tail of `_parse_claude_response` (src/fight_simulator.py
lines 156-188) applied to the already-extracted JSON fields: validate the
declared winner, then build the `FightResult` (whose `__post_init__` runs). -/
def parseFromFields (rawWinner : String) (probability : Int) (narrative : String)
    (team1 team2 : String) : Except PyErr FightResult :=
  match matchWinner rawWinner team1 team2 with
  | Except.error e => Except.error e
  | Except.ok wl => FightResult.mkChecked wl.1 wl.2 probability narrative

/-- The JSON fields a Claude response declares, as extracted by
`_parse_claude_response` before validation. -/
structure RawFields where
  winner : String
  prob : Int
  narr : String

/-- The decider capability: `simulate_fight(team1, team2)` either returns a
`FightResult` or raises. -/
def Decider := String → String → Except PyErr FightResult

/-- A `FightSimulator` whose Claude backend answers each matchup with the
fields `respond` and parses them through `_parse_claude_response`. -/
def claudeDecider (respond : String → String → RawFields) : Decider :=
  fun t1 t2 =>
    parseFromFields (respond t1 t2).winner (respond t1 t2).prob (respond t1 t2).narr t1 t2

/-- `MOCK_NARRATIVES` from src/fight_simulator.py lines 10-16, with the two
`str.format` placeholders turned into function arguments. -/
def MOCK_NARRATIVES : List (String → String → String) :=
  [fun winner loser =>
    winner ++ " dominated " ++ loser ++ " from the opening bell. The " ++ loser ++
      " barely had time to react before the decisive blow ended it all.",
   fun winner loser =>
    "In a brutal upset, " ++ winner ++ " dismantled " ++ loser ++
      " piece by piece, using raw power and cunning to seal the victory.",
   fun winner loser =>
    winner ++ " toyed with " ++ loser ++
      " early, then unleashed a furious finishing combination that left no doubt about the outcome.",
   fun winner loser =>
    "It was a bloodbath from the start — " ++ winner ++ " absorbed everything " ++ loser ++
      " had and came back twice as hard, ending it emphatically.",
   fun winner loser =>
    winner ++ " used superior reach and ferocity to keep " ++ loser ++
      " off-balance all fight, landing a haymaker that sealed the deal."]

/-- Python `sorted` on a two-element list (stable: swap only if the second
element is strictly smaller). -/
def pySorted2 (a b : String) : String × String := if pyLt b a then (b, a) else (a, b)

/-- The three draws `random.Random(seed)` makes inside `_mock_fight`
(one `choice` on the sorted team pair, one `randint(54, 95)`, one `choice`
on the five narratives).  Each draw is a pure function of the seed — that is
all `_mock_fight` relies on — and the fields carry the documented contracts
of Python `random`: `choice` returns an index into the list and
`randint(a, b)` a value in `[a, b]`. -/
structure PyRandomModel where
  firstChoice : Nat → Nat → Nat
  secondRandint : Nat → Nat → Nat → Nat
  thirdChoice : Nat → Nat → Nat
  firstChoice_lt : ∀ seed len, 0 < len → firstChoice seed len < len
  secondRandint_mem : ∀ seed lo hi, lo ≤ hi →
    lo ≤ secondRandint seed lo hi ∧ secondRandint seed lo hi ≤ hi
  thirdChoice_lt : ∀ seed len, 0 < len → thirdChoice seed len < len

/-- `FightSimulator._mock_fight` (src/fight_simulator.py lines 76-96),
parameterised over the Python runtime `hash` (`pyHash`, an arbitrary integer
hash of the seed string; `abs(hash(s)) % 2**32` is applied as in the source)
and the `random.Random` draws `R`. -/
def mockFight (pyHash : String → Int) (R : PyRandomModel) (team1 team2 : String) :
    Except PyErr FightResult :=
  let st0 := pySorted2 (pyLower team1) (pyLower team2)
  let seedString := st0.1 ++ st0.2
  let seed := (pyHash seedString).natAbs % 2 ^ 32
  let st := pySorted2 team1 team2
  let winner := [st.1, st.2].getD (R.firstChoice seed 2) ""
  let loser := if winner = st.1 then st.2 else st.1
  let probability := R.secondRandint seed 54 95
  let tmpl := MOCK_NARRATIVES.getD (R.thirdChoice seed MOCK_NARRATIVES.length) (fun _ _ => "")
  FightResult.mkChecked winner loser (Int.ofNat probability) (tmpl winner loser)

/-- `DIVISION_ORDER` from src/tournament.py line 8. -/
def DIVISION_ORDER : List String := ["West", "East", "South", "Midwest"]

/-- The game loop of `Tournament._run_single_division_round`
(src/tournament.py lines 102-109): call the decider once per matchup in
order, pick `team1` when the returned winner string equals `team1.name` and
`team2` otherwise, and let a raised error abort the loop.  The first
component is the ordered list of decider invocations (pairs of names). -/
def runMatchups (dec : Decider) : List (Team × Team) →
    List (String × String) × Except PyErr (List Team)
  | [] => ([], Except.ok [])
  | (t1, t2) :: rest =>
    match dec t1.name t2.name with
    | Except.error e => ([(t1.name, t2.name)], Except.error e)
    | Except.ok result =>
      let winner := if result.winner = t1.name then t1 else t2
      let r := runMatchups dec rest
      ((t1.name, t2.name) :: r.1, r.2.map (fun ws => winner :: ws))

/-- `Tournament._run_single_division_round` (src/tournament.py lines 89-109):
query the matchups, then run the game loop. -/
def runSingleDivisionRound (dec : Decider) (b : Bracket) (dname : String) :
    List (String × String) × Except PyErr (List Team) :=
  match getDivisionMatchups b dname with
  | Except.error e => ([], Except.error e)
  | Except.ok ms => runMatchups dec ms

/-- The `while teams_count > 1` loop of `Tournament._run_division_rounds`
(src/tournament.py lines 71-80): run a round, advance the winners, continue
with `teams_count = len(winners)`.  `fuel` bounds the recursion; every run
considered consumes at most `teams_count` iterations, so the
`nonTermination` branch is unreachable there. -/
def runDivisionLoop (dec : Decider) (dname : String) :
    Bracket → Nat → Nat → List (String × String) × Except PyErr Bracket
  | b, teamsCount, 0 =>
    if teamsCount ≤ 1 then ([], Except.ok b) else ([], Except.error PyErr.nonTermination)
  | b, teamsCount, fuel + 1 =>
    if teamsCount ≤ 1 then ([], Except.ok b)
    else
      let rr := runSingleDivisionRound dec b dname
      match rr.2 with
      | Except.error e => (rr.1, Except.error e)
      | Except.ok winners =>
        match advanceRound b dname winners with
        | Except.error e => (rr.1, Except.error e)
        | Except.ok b2 =>
          let r := runDivisionLoop dec dname b2 winners.length fuel
          (rr.1 ++ r.1, r.2)

/-- `Tournament._run_division_rounds` (src/tournament.py lines 50-87):
iterate `DIVISION_ORDER`, silently skipping names missing from the bracket
(`continue`), run each present division down to one team, and read that
team (`teams[0]`) as the region winner. -/
def runDivisionsGo (dec : Decider) : List String → Bracket → List (String × Team) →
    List (String × String) × Except PyErr (Bracket × List (String × Team))
  | [], b, acc => ([], Except.ok (b, acc))
  | dname :: rest, b, acc =>
    match alookup dname b.divisions with
    | none => runDivisionsGo dec rest b acc
    | some d =>
      let r := runDivisionLoop dec dname b d.teams.length d.teams.length
      match r.2 with
      | Except.error e => (r.1, Except.error e)
      | Except.ok b2 =>
        match alookup dname b2.divisions with
        | none => (r.1, Except.error (PyErr.keyError dname))
        | some d2 =>
          match d2.teams with
          | [] => (r.1, Except.error PyErr.indexError)
          | champ :: _ =>
            let r2 := runDivisionsGo dec rest b2 (acc ++ [(dname, champ)])
            (r.1 ++ r2.1, r2.2)

/-- `Tournament._run_final_four_and_championship` (src/tournament.py
lines 111-146): two semifinals with the same winner-selection rule as the
division rounds, then the championship game; the tournament champion is the
winner string of the championship result. -/
def runFinalFourAndChampionship (dec : Decider) (regionWinners : List (String × Team)) :
    List (String × String) × Except PyErr String :=
  match getFinalFourMatchups regionWinners with
  | Except.error e => ([], Except.error e)
  | Except.ok ms =>
    let r := runMatchups dec ms
    match r.2 with
    | Except.error e => (r.1, Except.error e)
    | Except.ok ffWinners =>
      match getChampionshipMatchup ffWinners with
      | Except.error e => (r.1, Except.error e)
      | Except.ok fin =>
        match dec fin.1.name fin.2.name with
        | Except.error e => (r.1 ++ [(fin.1.name, fin.2.name)], Except.error e)
        | Except.ok result => (r.1 ++ [(fin.1.name, fin.2.name)], Except.ok result.winner)

/-- `Tournament.run` (src/tournament.py lines 30-48), without the output
file: division rounds, then Final Four and Championship.  Returns the
ordered decider-invocation trace and the champion name (or the raised
error). -/
def runTournament (dec : Decider) (b : Bracket) :
    List (String × String) × Except PyErr String :=
  let r := runDivisionsGo dec DIVISION_ORDER b []
  match r.2 with
  | Except.error e => (r.1, Except.error e)
  | Except.ok p =>
    let r2 := runFinalFourAndChampionship dec p.2
    (r.1 ++ r2.1, r2.2)

/-- The decider of the test suite's `AlwaysFirstSimulator`
(tests/test_tournament.py lines 23-32): always declares `team1` the winner. -/
def alwaysFirstDecider : Decider :=
  fun t1 t2 =>
    Except.ok (FightResult.mk t1 t2 99 (t1 ++ " crushed " ++ t2 ++ " without breaking a sweat."))

/-- The 15 decider invocations one division of sixteen seeded teams
produces under a first-team-wins decider, where `f s` is the division team
with seed `s`: the eight `ROUND_ONE_BRACKET` games, then 4 + 2 + 1
consecutive-slot games among the surviving first-named teams. -/
def trace16 (f : Nat → Team) : List (String × String) :=
  [((f 1).name, (f 16).name), ((f 8).name, (f 9).name), ((f 5).name, (f 12).name),
   ((f 4).name, (f 13).name), ((f 6).name, (f 11).name), ((f 3).name, (f 14).name),
   ((f 7).name, (f 10).name), ((f 2).name, (f 15).name),
   ((f 1).name, (f 8).name), ((f 5).name, (f 4).name), ((f 6).name, (f 3).name),
   ((f 7).name, (f 2).name),
   ((f 1).name, (f 5).name), ((f 6).name, (f 7).name),
   ((f 1).name, (f 6).name)]

/-- Team `s` of a witness division tagged `tag`, named e.g. `W3` with seed 3. -/
def wTeamF (tag : String) : Nat → Team := fun s => Team.mk (tag ++ toString s) s

/-- Sixteen witness teams seeded 1..16 in natural order. -/
def mkTeams (tag : String) : List Team := (List.range 16).map (fun i => wTeamF tag (i + 1))

/-- Fifteen witness teams seeded 1..15, for the malformed-bracket claims. -/
def mkTeams15 (tag : String) : List Team := (List.range 15).map (fun i => wTeamF tag (i + 1))

/-- Witness divisions. -/
def dWdiv : Division := Division.mk "West" (mkTeams "W")

/-- Witness East division. -/
def dEdiv : Division := Division.mk "East" (mkTeams "E")

/-- Witness South division. -/
def dSdiv : Division := Division.mk "South" (mkTeams "S")

/-- Witness Midwest division. -/
def dMdiv : Division := Division.mk "Midwest" (mkTeams "M")

/-- A well-formed witness bracket: four divisions of sixteen seeded teams. -/
def bigBracket : Bracket :=
  Bracket.mk [("West", dWdiv), ("East", dEdiv), ("South", dSdiv), ("Midwest", dMdiv)]

/-- A malformed bracket missing the Midwest division. -/
def bracket3Div : Bracket := Bracket.mk [("West", dWdiv), ("East", dEdiv), ("South", dSdiv)]

/-- A malformed bracket whose East division has fifteen teams. -/
def bracketEast15 : Bracket :=
  Bracket.mk [("West", dWdiv), ("East", Division.mk "East" (mkTeams15 "E")),
    ("South", dSdiv), ("Midwest", dMdiv)]

/-- A bracket whose only division has been reduced to a single team. -/
def oneTeamBracket : Bracket :=
  Bracket.mk [("West", Division.mk "West" [wTeamF "W" 1])]

/-- A concrete `PyRandomModel`: every draw returns the least legal value. -/
def trivialRandom : PyRandomModel where
  firstChoice := fun _ _ => 0
  secondRandint := fun _ lo _ => lo
  thirdChoice := fun _ _ => 0
  firstChoice_lt := fun _ _ h => h
  secondRandint_mem := fun _ _ _ h => ⟨Nat.le_refl _, h⟩
  thirdChoice_lt := fun _ _ h => h

/-- A concrete string hash for witnesses. -/
def zeroHash : String → Int := fun _ => 0

/-- Modelled from the spec (§4.1, refinement target for C2): the generic
rule for rounds after round one, in the spec's words — "pair index 2i with
2i+1 for i = 0 .. N/2−1, preserving the list's existing order". -/
def specNextRoundOrder (l : List Team) : List (Team × Team) :=
  (List.range (l.length / 2)).map (fun i => (l.getD (2 * i) default, l.getD (2 * i + 1) default))

/-- Eight witness teams for the later-round pairing claim. -/
def eightTeams : List Team := (List.range 8).map (fun i => wTeamF "W" (i + 1))

/-- A bracket whose only division holds the eight witness teams. -/
def eightBracket : Bracket := Bracket.mk [("West", Division.mk "West" eightTeams)]

/-- The concrete result of the witness mock fight Eagles vs Bears under
`zeroHash` and `trivialRandom`. -/
def rEB : FightResult :=
  FightResult.mk "Bears" "Eagles" 54
    ((MOCK_NARRATIVES.getD 0 (fun _ _ => "")) "Bears" "Eagles")

/-- A witness Claude response declaring a winner that matches neither team
(taken from tests/test_fight_simulator.py lines 148-156). -/
def unknownRespond : String → String → RawFields :=
  fun _ _ => RawFields.mk "UnknownTeam" 60 "Mystery winner."

/-- A witness region-winner mapping with all four division keys. -/
def rwEx : List (String × Team) :=
  [("West", wTeamF "W" 1), ("East", wTeamF "E" 1),
   ("South", wTeamF "S" 1), ("Midwest", wTeamF "M" 1)]

/-- Folding the seed dict: a successful lookup yields a team from the list
carrying the requested seed (or the unchanged initial accumulator). -/
theorem seedToTeam_fold_spec (s : Nat) :
    ∀ (ts : List Team) (init : Option Team) (t : Team),
      ts.foldl (fun acc tm => if tm.seed = s then some tm else acc) init = some t →
      (t.seed = s ∧ t ∈ ts) ∨ init = some t := by
  intro ts
  induction ts with
  | nil => intro init t h; exact Or.inr h
  | cons a l ih =>
    intro init t h
    simp only [List.foldl_cons] at h
    rcases ih _ t h with h1 | h2
    · exact Or.inl ⟨h1.1, List.mem_cons_of_mem _ h1.2⟩
    · by_cases ha : a.seed = s
      · rw [if_pos ha] at h2
        injection h2 with he
        subst he
        exact Or.inl ⟨ha, List.mem_cons_self _ _⟩
      · rw [if_neg ha] at h2
        exact Or.inr h2

/-- A successful `seedToTeam` lookup returns a member of the list with the
requested seed. -/
theorem seedToTeam_spec (ts : List Team) (s : Nat) (t : Team)
    (h : seedToTeam ts s = some t) : t.seed = s ∧ t ∈ ts := by
  rcases seedToTeam_fold_spec s ts none t h with h1 | h2
  · exact h1
  · cases h2

/-- When every seed of the round-one table resolves, the seed-table mapping
succeeds and returns exactly the table image. -/
theorem mapMatchups_covering (ts : List Team) (f : Nat → Team)
    (hf : ∀ s, 1 ≤ s → s ≤ 16 → seedToTeam ts s = some (f s)) :
    mapMatchups ts ROUND_ONE_BRACKET =
      Except.ok (ROUND_ONE_BRACKET.map (fun p => (f p.1, f p.2))) := by
  have h1 := hf 1 (by norm_num) (by norm_num)
  have h2 := hf 2 (by norm_num) (by norm_num)
  have h3 := hf 3 (by norm_num) (by norm_num)
  have h4 := hf 4 (by norm_num) (by norm_num)
  have h5 := hf 5 (by norm_num) (by norm_num)
  have h6 := hf 6 (by norm_num) (by norm_num)
  have h7 := hf 7 (by norm_num) (by norm_num)
  have h8 := hf 8 (by norm_num) (by norm_num)
  have h9 := hf 9 (by norm_num) (by norm_num)
  have h10 := hf 10 (by norm_num) (by norm_num)
  have h11 := hf 11 (by norm_num) (by norm_num)
  have h12 := hf 12 (by norm_num) (by norm_num)
  have h13 := hf 13 (by norm_num) (by norm_num)
  have h14 := hf 14 (by norm_num) (by norm_num)
  have h15 := hf 15 (by norm_num) (by norm_num)
  have h16 := hf 16 (by norm_num) (by norm_num)
  simp [ROUND_ONE_BRACKET, mapMatchups, h1, h2, h3, h4, h5, h6, h7, h8, h9, h10,
    h11, h12, h13, h14, h15, h16, Except.map]

/-- On a list of even length, the consecutive-slot loop succeeds and
returns exactly the pairing the spec prescribes. -/
theorem pairSlots_spec :
    ∀ l : List Team, l.length % 2 = 0 → pairSlots l = Except.ok (specNextRoundOrder l)
  | [], _ => by simp [pairSlots, specNextRoundOrder]
  | [t], h => by simp at h
  | a :: b :: rest, h => by
    have h2 : rest.length % 2 = 0 := by
      simp only [List.length_cons] at h
      omega
    have hlen : (a :: b :: rest).length / 2 = rest.length / 2 + 1 := by
      simp only [List.length_cons]
      omega
    have hcons : specNextRoundOrder (a :: b :: rest) = (a, b) :: specNextRoundOrder rest := by
      unfold specNextRoundOrder
      rw [hlen, List.range_succ_eq_map, List.map_cons, List.map_map]
      have hfun : ((fun i =>
            ((a :: b :: rest).getD (2 * i) default, (a :: b :: rest).getD (2 * i + 1) default)) ∘
              Nat.succ) =
          (fun i => (rest.getD (2 * i) default, rest.getD (2 * i + 1) default)) := by
        funext i
        have e1 : 2 * Nat.succ i = 2 * i + 1 + 1 := by omega
        have e2 : 2 * Nat.succ i + 1 = 2 * i + 1 + 1 + 1 := by omega
        simp only [Function.comp_apply, e1, e2, List.getD_cons_succ]
      rw [hfun]
      norm_num
    simp only [pairSlots]
    rw [pairSlots_spec rest h2, hcons]
    rfl

/-- Length of the spec pairing. -/
theorem specNextRoundOrder_length (l : List Team) :
    (specNextRoundOrder l).length = l.length / 2 := by
  simp [specNextRoundOrder]

/-- Looking the updated key up after `advance_round` yields the division
with the replaced team list. -/
theorem alookup_map_updKV_self (dname : String) (ws : List Team) :
    ∀ l : List (String × Division),
      alookup dname (l.map (updKV dname ws)) =
        (alookup dname l).map (fun dv => Division.mk dv.name ws)
  | [] => rfl
  | kv :: rest => by
    by_cases hk : kv.1 = dname
    · simp [alookup, updKV, hk]
    · simp [alookup, updKV, hk, alookup_map_updKV_self dname ws rest]

/-- Looking any other key up after `advance_round` is unchanged. -/
theorem alookup_map_updKV_ne (k dname : String) (ws : List Team) (hk : k ≠ dname) :
    ∀ l : List (String × Division),
      alookup k (l.map (updKV dname ws)) = alookup k l
  | [] => rfl
  | kv :: rest => by
    by_cases h1 : kv.1 = dname
    · have h2 : ¬ dname = k := fun hh => hk hh.symm
      simp [alookup, updKV, h1, h2, alookup_map_updKV_ne k dname ws hk rest]
    · simp [alookup, updKV, h1, alookup_map_updKV_ne k dname ws hk rest]

/-- Two successive replacements of the same division collapse to the last. -/
theorem map_updKV_updKV (dname : String) (ws1 ws2 : List Team)
    (l : List (String × Division)) :
    (l.map (updKV dname ws1)).map (updKV dname ws2) = l.map (updKV dname ws2) := by
  rw [List.map_map]
  have hc : (updKV dname ws2 ∘ updKV dname ws1) = updKV dname ws2 := by
    funext kv
    by_cases hk : kv.1 = dname
    · simp [updKV, hk]
    · simp [updKV, hk]
  rw [hc]

/-- A division already down to one team (or none) makes the while loop of
`_run_division_rounds` exit immediately: no game is requested. -/
theorem runDivisionLoop_le (dec : Decider) (dname : String) (b : Bracket)
    (tc fuel : Nat) (h : tc ≤ 1) :
    runDivisionLoop dec dname b tc fuel = ([], Except.ok b) := by
  cases fuel with
  | zero =>
    rw [runDivisionLoop]
    rw [if_pos h]
  | succ fuel2 =>
    rw [runDivisionLoop]
    rw [if_pos h]

/-- The witness divisions cover every seed 1..16 with the expected team. -/
theorem mkTeams_cover (tag : String) :
    ∀ s, 1 ≤ s → s ≤ 16 → seedToTeam (mkTeams tag) s = some (wTeamF tag s) := by
  intro s h1 h2
  interval_cases s <;> rfl

/-- Claim C1: for a division of 16 teams whose seeds 1..16 all resolve
(`f s` being the team at seed `s`), `get_division_matchups` returns exactly
the eight pairs of `ROUND_ONE_BRACKET`, positionally: pair `k` is the pair
of teams whose seeds are the `k`-th entry of the table. -/
theorem c1 (b : Bracket) (dname : String) (d : Division) (f : Nat → Team)
    (hd : alookup dname b.divisions = some d)
    (hlen : d.teams.length = 16)
    (hf : ∀ s, 1 ≤ s → s ≤ 16 → seedToTeam d.teams s = some (f s)) :
    getDivisionMatchups b dname =
      Except.ok (ROUND_ONE_BRACKET.map (fun p => (f p.1, f p.2))) ∧
    (ROUND_ONE_BRACKET.map (fun p => (f p.1, f p.2))).length = 8 ∧
    ∀ s, 1 ≤ s → s ≤ 16 → (f s).seed = s ∧ f s ∈ d.teams := by
  refine ⟨?_, by simp [ROUND_ONE_BRACKET], ?_⟩
  · simp [getDivisionMatchups, hd, hlen, mapMatchups_covering d.teams f hf]
  · intro s h1 h2
    exact seedToTeam_spec d.teams s (f s) (hf s h1 h2)

/-- Witness for C1 at the concrete seeded witness bracket. -/
theorem c1_witness :
    getDivisionMatchups bigBracket "West" =
      Except.ok (ROUND_ONE_BRACKET.map (fun p => (wTeamF "W" p.1, wTeamF "W" p.2))) ∧
    (wTeamF "W" 5).seed = 5 := by
  have h := c1 bigBracket "West" dWdiv (wTeamF "W") rfl rfl (mkTeams_cover "W")
  exact ⟨h.1, (h.2.2 5 (by norm_num) (by norm_num)).1⟩

/-- Claim C2: for a division of 8, 4 or 2 teams, `get_division_matchups`
returns exactly the consecutive-slot pairing the spec prescribes
(`specNextRoundOrder`: pair `i` is `(teams[2i], teams[2i+1])`, order
preserved), with exactly `N/2` pairs. -/
theorem c2 (b : Bracket) (dname : String) (d : Division)
    (hd : alookup dname b.divisions = some d)
    (hn : d.teams.length = 8 ∨ d.teams.length = 4 ∨ d.teams.length = 2) :
    getDivisionMatchups b dname = Except.ok (specNextRoundOrder d.teams) ∧
    (specNextRoundOrder d.teams).length = d.teams.length / 2 := by
  have hne : ¬ d.teams.length = 16 := by rcases hn with h | h | h <;> omega
  have hev : d.teams.length % 2 = 0 := by rcases hn with h | h | h <;> omega
  constructor
  · simp [getDivisionMatchups, hd, hne, pairSlots_spec d.teams hev]
  · exact specNextRoundOrder_length d.teams

/-- Witness for C2 at a concrete eight-team division. -/
theorem c2_witness :
    getDivisionMatchups eightBracket "West" = Except.ok (specNextRoundOrder eightTeams) ∧
    (specNextRoundOrder eightTeams).length = eightTeams.length / 2 :=
  c2 eightBracket "West" (Division.mk "West" eightTeams) rfl (Or.inl rfl)

/-- Claim C6 counterexample: on a division reduced to one team,
`get_division_matchups` does not return the empty matchup list the claim
demands — the pairing loop reads `teams[1]` (Python `range(0, 1, 2)`
contains `0`) and raises `IndexError`. -/
theorem c6_counterexample :
    getDivisionMatchups oneTeamBracket "West" = Except.error PyErr.indexError ∧
    getDivisionMatchups oneTeamBracket "West" ≠
      Except.ok ([] : List (Team × Team)) := by
  decide

/-- Claim C6 amended: a division reduced to exactly one team makes
`get_division_matchups` raise `IndexError` rather than return an empty
sequence; division-phase completion is instead signalled by the driver's
`while teams_count > 1` loop, which stops without requesting matchups. -/
theorem c6_amended (b : Bracket) (dname : String) (d : Division) (t : Team)
    (hd : alookup dname b.divisions = some d) (ht : d.teams = [t]) :
    getDivisionMatchups b dname = Except.error PyErr.indexError ∧
    ∀ (dec : Decider) (fuel : Nat),
      runDivisionLoop dec dname b 1 fuel = ([], Except.ok b) := by
  constructor
  · simp [getDivisionMatchups, hd, ht, pairSlots]
  · intro dec fuel
    exact runDivisionLoop_le dec dname b 1 fuel (Nat.le_refl 1)

/-- Witness for the amended C6 at the concrete one-team bracket. -/
theorem c6_witness :
    getDivisionMatchups oneTeamBracket "West" = Except.error PyErr.indexError ∧
    runDivisionLoop alwaysFirstDecider "West" oneTeamBracket 1 5 =
      ([], Except.ok oneTeamBracket) := by
  have h := c6_amended oneTeamBracket "West"
    (Division.mk "West" [wTeamF "W" 1]) (wTeamF "W" 1) rfl rfl
  exact ⟨h.1, h.2 alwaysFirstDecider 5⟩

/-- Claim C7: `advance_round` replaces the named division's team list with
the winners verbatim (same division name, new team list) and leaves every
other division's entry untouched. -/
theorem c7 (b : Bracket) (dname : String) (d : Division) (winners : List Team)
    (hd : alookup dname b.divisions = some d) :
    advanceRound b dname winners =
      Except.ok (Bracket.mk (b.divisions.map (updKV dname winners))) ∧
    alookup dname (b.divisions.map (updKV dname winners)) =
      some (Division.mk d.name winners) ∧
    ∀ k, k ≠ dname →
      alookup k (b.divisions.map (updKV dname winners)) = alookup k b.divisions := by
  refine ⟨by simp [advanceRound, hd], ?_, ?_⟩
  · rw [alookup_map_updKV_self, hd]
    rfl
  · intro k hk
    exact alookup_map_updKV_ne k dname winners hk b.divisions

/-- Witness for C7 at the concrete witness bracket. -/
theorem c7_witness :
    advanceRound bigBracket "West" [wTeamF "W" 1] =
      Except.ok (Bracket.mk (bigBracket.divisions.map (updKV "West" [wTeamF "W" 1]))) ∧
    alookup "East" (bigBracket.divisions.map (updKV "West" [wTeamF "W" 1])) =
      alookup "East" bigBracket.divisions := by
  have h := c7 bigBracket "West" dWdiv [wTeamF "W" 1] rfl
  exact ⟨h.1, h.2.2 "East" (by decide)⟩

/-- Claim C8: with all four division keys present,
`get_final_four_matchups` returns exactly `[(West, East), (South, Midwest)]`
in that order, and `get_championship_matchup` returns the two finalists in
the order given. -/
theorem c8 :
    (∀ (rw : List (String × Team)) (W E S M : Team),
      alookup "West" rw = some W → alookup "East" rw = some E →
      alookup "South" rw = some S → alookup "Midwest" rw = some M →
      getFinalFourMatchups rw = Except.ok [(W, E), (S, M)]) ∧
    ∀ A B : Team, getChampionshipMatchup [A, B] = Except.ok (A, B) := by
  constructor
  · intro rw W E S M hW hE hS hM
    simp [getFinalFourMatchups, FINAL_FOUR_PAIRS, ffGo, hW, hE, hS, hM, Except.map]
  · intro A B
    rfl

/-- Witness for C8 at a concrete region-winner mapping. -/
theorem c8_witness :
    getFinalFourMatchups rwEx =
      Except.ok [(wTeamF "W" 1, wTeamF "E" 1), (wTeamF "S" 1, wTeamF "M" 1)] ∧
    getChampionshipMatchup [wTeamF "W" 1, wTeamF "S" 1] =
      Except.ok (wTeamF "W" 1, wTeamF "S" 1) :=
  ⟨c8.1 rwEx _ _ _ _ rfl rfl rfl rfl, c8.2 _ _⟩

/-- When the declared winner matches neither team name loosely, the
validation cascade of `_parse_claude_response` raises `ValueError`. -/
theorem matchWinner_noMatch (rawW t1 t2 : String)
    (h1 : looseMatchB rawW t1 = false) (h2 : looseMatchB rawW t2 = false) :
    matchWinner rawW t1 t2 =
      Except.error (PyErr.valueError (validationMsg rawW t1 t2)) := by
  simp only [looseMatchB, Bool.or_eq_false_iff] at h1 h2
  obtain ⟨⟨e1, e2⟩, e3⟩ := h1
  obtain ⟨⟨f1, f2⟩, f3⟩ := h2
  simp [matchWinner, e1, e2, e3, f1, f2, f3]

/-- Field-level form of the same fact, through `parseFromFields`: no
`FightResult` is ever constructed from an unmatchable winner. -/
theorem parseFromFields_noMatch (rawW : String) (prob : Int) (narr : String)
    (t1 t2 : String)
    (h1 : looseMatchB rawW t1 = false) (h2 : looseMatchB rawW t2 = false) :
    parseFromFields rawW prob narr t1 t2 =
      Except.error (PyErr.valueError (validationMsg rawW t1 t2)) := by
  simp [parseFromFields, matchWinner_noMatch rawW t1 t2 h1 h2]

/-- Splitting the game loop of `_run_single_division_round`: after a
prefix of successfully decided games, the loop continues with the rest,
prepending the recorded invocations and winners. -/
theorem runMatchups_append (dec : Decider) :
    ∀ (l1 : List (Team × Team)) (tr0 : List (String × String)) (ws : List Team)
      (l2 : List (Team × Team)) (tr2 : List (String × String))
      (res2 : Except PyErr (List Team)),
      runMatchups dec l1 = (tr0, Except.ok ws) →
      runMatchups dec l2 = (tr2, res2) →
      runMatchups dec (l1 ++ l2) = (tr0 ++ tr2, res2.map (fun ws2 => ws ++ ws2))
  | [], tr0, ws, l2, tr2, res2 => by
    intro h h2
    simp only [runMatchups, Prod.mk.injEq] at h
    obtain ⟨ht, hw⟩ := h
    injection hw with hw
    subst ht
    subst hw
    rw [List.nil_append, h2]
    cases res2 <;> simp [Except.map]
  | (t1, t2) :: rest, tr0, ws, l2, tr2, res2 => by
    intro h h2
    cases hd : dec t1.name t2.name with
    | error e => simp [runMatchups, hd] at h
    | ok result =>
      rcases hrest : runMatchups dec rest with ⟨trr, resr⟩
      simp only [runMatchups, hd, hrest, Prod.mk.injEq] at h
      obtain ⟨ht, hw⟩ := h
      cases resr with
      | error e => simp [Except.map] at hw
      | ok wsr =>
        simp only [Except.map, Except.ok.injEq] at hw
        subst ht
        subst hw
        rw [List.cons_append]
        simp only [runMatchups, hd,
          runMatchups_append dec rest trr wsr l2 tr2 res2 hrest h2]
        cases res2 <;> simp [Except.map]

/-- Claim C4: a response whose declared winner matches neither input team
name — not exactly case-insensitively and not by substring in either
direction — makes `_parse_claude_response` raise `ValueError` (the spec's
OutcomeValidationError) instead of returning a result, and the game loop
driven by such a responding decider aborts at that game: the failing
matchup is the last decider invocation, no later matchup of the division
round is played, and no winner list is produced (so nothing is coerced or
advanced). -/
theorem c4 :
    (∀ (rawW : String) (prob : Int) (narr : String) (t1 t2 : String),
      looseMatchB rawW t1 = false → looseMatchB rawW t2 = false →
      parseFromFields rawW prob narr t1 t2 =
        Except.error (PyErr.valueError (validationMsg rawW t1 t2))) ∧
    (∀ (respond : String → String → RawFields) (pre post : List (Team × Team))
      (a b : Team) (tr0 : List (String × String)) (ws : List Team),
      runMatchups (claudeDecider respond) pre = (tr0, Except.ok ws) →
      looseMatchB (respond a.name b.name).winner a.name = false →
      looseMatchB (respond a.name b.name).winner b.name = false →
      runMatchups (claudeDecider respond) (pre ++ (a, b) :: post) =
        (tr0 ++ [(a.name, b.name)],
         Except.error (PyErr.valueError
           (validationMsg (respond a.name b.name).winner a.name b.name)))) := by
  constructor
  · exact parseFromFields_noMatch
  · intro respond pre post a b tr0 ws hpre hm1 hm2
    have hdec : claudeDecider respond a.name b.name =
        Except.error (PyErr.valueError
          (validationMsg (respond a.name b.name).winner a.name b.name)) := by
      unfold claudeDecider
      exact parseFromFields_noMatch _ _ _ _ _ hm1 hm2
    have htail : runMatchups (claudeDecider respond) ((a, b) :: post) =
        ([(a.name, b.name)],
         Except.error (PyErr.valueError
           (validationMsg (respond a.name b.name).winner a.name b.name))) := by
      simp [runMatchups, hdec]
    rw [runMatchups_append (claudeDecider respond) pre tr0 ws _ _ _ hpre htail]
    simp [Except.map]

/-- Witness for C4: the test suite's `UnknownTeam` response against
Wildcats/Tigers errors, and a one-game round with that response aborts at
that game. -/
theorem c4_witness :
    parseFromFields "UnknownTeam" 60 "Mystery winner." "Wildcats" "Tigers" =
      Except.error (PyErr.valueError (validationMsg "UnknownTeam" "Wildcats" "Tigers")) ∧
    runMatchups (claudeDecider unknownRespond)
        ([] ++ (Team.mk "Wildcats" 1, Team.mk "Tigers" 2) :: []) =
      ([] ++ [("Wildcats", "Tigers")],
       Except.error (PyErr.valueError (validationMsg "UnknownTeam" "Wildcats" "Tigers"))) := by
  constructor
  · exact c4.1 "UnknownTeam" 60 "Mystery winner." "Wildcats" "Tigers" (by decide) (by decide)
  · exact c4.2 unknownRespond [] [] (Team.mk "Wildcats" 1) (Team.mk "Tigers" 2) [] []
      rfl (by decide) (by decide)

/-- Claim C9, evaluation at the failing input: with teams `Cat` and `Cats`
and declared winner `Cats!` — which matches neither name exactly
case-insensitively but substring-matches both — the cascade does not raise:
it silently returns `Cat` (team1) as winner, preferring the first team on
an ambiguous substring collision. -/
theorem c9_eval :
    matchWinner "Cats!" "Cat" "Cats" = Except.ok ("Cat", "Cats") ∧
    (pyLower "Cats!" == pyLower "Cat") = false ∧
    (pyLower "Cats!" == pyLower "Cats") = false ∧
    pyIn (pyLower "Cat") (pyLower "Cats!") = true ∧
    pyIn (pyLower "Cats") (pyLower "Cats!") = true := by
  decide

/-- Python string comparison is asymmetric. -/
theorem pyLtL_asymm : ∀ as bs : List Char, pyLtL as bs = true → pyLtL bs as = false
  | [], [] => by simp [pyLtL]
  | [], _ :: _ => by simp [pyLtL]
  | _ :: _, [] => by simp [pyLtL]
  | a :: as, b :: bs => by
    simp only [pyLtL]
    by_cases h1 : a < b
    · have h2 : ¬ b < a := lt_asymm h1
      simp [h1, h2]
    · by_cases h2 : b < a
      · simp [h1, h2]
      · simp only [if_neg h1, if_neg h2]
        exact pyLtL_asymm as bs

/-- Two strings neither of which is below the other are equal. -/
theorem pyLtL_eq_of : ∀ as bs : List Char,
    pyLtL as bs = false → pyLtL bs as = false → as = bs
  | [], [] => fun _ _ => rfl
  | [], _ :: _ => by simp [pyLtL]
  | _ :: _, [] => by simp [pyLtL]
  | a :: as, b :: bs => by
    simp only [pyLtL]
    by_cases h1 : a < b
    · simp [h1]
    · by_cases h2 : b < a
      · simp [h1, h2]
      · have hab : a = b := le_antisymm (not_lt.mp h2) (not_lt.mp h1)
        intro hx hy
        simp only [h1, h2, if_false] at hx hy
        rw [hab, pyLtL_eq_of as bs hx hy]

/-- Sorting a two-element list is symmetric in its arguments. -/
theorem pySorted2_comm (a b : String) : pySorted2 a b = pySorted2 b a := by
  unfold pySorted2 pyLt
  by_cases h1 : pyLtL b.data a.data = true
  · have h2 : pyLtL a.data b.data = false := pyLtL_asymm _ _ h1
    simp [h1, h2]
  · have h1f : pyLtL b.data a.data = false := by
      cases hb : pyLtL b.data a.data
      · rfl
      · exact absurd hb h1
    by_cases h2 : pyLtL a.data b.data = true
    · simp [h1f, h2]
    · have h2f : pyLtL a.data b.data = false := by
        cases hb : pyLtL a.data b.data
        · rfl
        · exact absurd hb h2
      have hd : b.data = a.data := pyLtL_eq_of b.data a.data h1f h2f
      have hab : b = a := by
        cases a
        cases b
        simp only at hd
        rw [hd]
      rw [hab]

/-- `pySorted2` returns the two inputs in one of the two orders. -/
theorem pySorted2_cases (a b : String) :
    pySorted2 a b = (a, b) ∨ pySorted2 a b = (b, a) := by
  unfold pySorted2
  by_cases h : pyLt b a = true
  · simp [h]
  · simp [h]

/-- Inverting a successful checked `FightResult` construction. -/
theorem mkChecked_ok_inv (w l : String) (wp : Int) (n : String) (r : FightResult)
    (h : FightResult.mkChecked w l wp n = Except.ok r) :
    r.winner = w ∧ r.loser = l ∧ r.win_probability = wp := by
  unfold FightResult.mkChecked at h
  split_ifs at h
  injection h with hh
  subst hh
  exact ⟨rfl, rfl, rfl⟩

/-- Claim C10: `_mock_fight` is symmetric in its two arguments — swapping
the team names yields the identical result (same winner, loser,
probability and narrative, or the identical error) — and any result it
returns has `win_probability` between 54 and 95 and declares one input the
winner and the other the loser.  Quantified over every runtime string hash
and every deterministic `random.Random` draw assignment satisfying the
documented `choice`/`randint` contracts. -/
theorem c10 (pyHash : String → Int) (R : PyRandomModel) (t1 t2 : String) :
    mockFight pyHash R t1 t2 = mockFight pyHash R t2 t1 ∧
    ∀ r : FightResult, mockFight pyHash R t1 t2 = Except.ok r →
      ((54 : Int) ≤ r.win_probability ∧ r.win_probability ≤ 95) ∧
      ((r.winner = t1 ∧ r.loser = t2) ∨ (r.winner = t2 ∧ r.loser = t1)) := by
  constructor
  · simp only [mockFight, pySorted2_comm (pyLower t1) (pyLower t2), pySorted2_comm t1 t2]
  · have key : ∀ (seed : Nat) (st : String × String),
        st = (t1, t2) ∨ st = (t2, t1) →
        ∀ r : FightResult,
          FightResult.mkChecked ([st.1, st.2].getD (R.firstChoice seed 2) "")
            (if [st.1, st.2].getD (R.firstChoice seed 2) "" = st.1 then st.2 else st.1)
            (Int.ofNat (R.secondRandint seed 54 95))
            ((MOCK_NARRATIVES.getD (R.thirdChoice seed MOCK_NARRATIVES.length) (fun _ _ => ""))
              ([st.1, st.2].getD (R.firstChoice seed 2) "")
              (if [st.1, st.2].getD (R.firstChoice seed 2) "" = st.1 then st.2 else st.1)) =
            Except.ok r →
          ((54 : Int) ≤ r.win_probability ∧ r.win_probability ≤ 95) ∧
          ((r.winner = t1 ∧ r.loser = t2) ∨ (r.winner = t2 ∧ r.loser = t1)) := by
      intro seed st hst r hr
      have hidx : R.firstChoice seed 2 < 2 := R.firstChoice_lt seed 2 (by norm_num)
      have hv := R.secondRandint_mem seed 54 95 (by norm_num)
      obtain ⟨hw, hl, hp⟩ := mkChecked_ok_inv _ _ _ _ _ hr
      constructor
      · rw [hp, Int.ofNat_eq_natCast]
        have hv1 := hv.1
        have hv2 := hv.2
        omega
      · have h01 : R.firstChoice seed 2 = 0 ∨ R.firstChoice seed 2 = 1 := by omega
        rcases h01 with h0 | h1
        · rw [h0] at hw hl
          simp only [List.getD_cons_zero, if_pos rfl] at hw hl
          rcases hst with h | h <;> subst h
          · exact Or.inl ⟨hw, hl⟩
          · exact Or.inr ⟨hw, hl⟩
        · rw [h1] at hw hl
          simp only [List.getD_cons_succ, List.getD_cons_zero] at hw hl
          by_cases he : st.2 = st.1
          · rw [if_pos he] at hl
            rcases hst with h | h <;> subst h
            · simp only at hw hl he
              exact Or.inr ⟨hw, hl.trans he⟩
            · simp only at hw hl he
              exact Or.inl ⟨hw, hl.trans he⟩
          · rw [if_neg he] at hl
            rcases hst with h | h <;> subst h
            · exact Or.inr ⟨hw, hl⟩
            · exact Or.inl ⟨hw, hl⟩
    intro r hr
    exact key ((pyHash ((pySorted2 (pyLower t1) (pyLower t2)).1 ++
        (pySorted2 (pyLower t1) (pyLower t2)).2)).natAbs % 2 ^ 32)
      (pySorted2 t1 t2) (pySorted2_cases t1 t2) r hr

/-- Witness for C10 at Eagles vs Bears with concrete hash and draws. -/
theorem c10_witness :
    mockFight zeroHash trivialRandom "Eagles" "Bears" =
      mockFight zeroHash trivialRandom "Bears" "Eagles" ∧
    (((54 : Int) ≤ rEB.win_probability ∧ rEB.win_probability ≤ 95) ∧
      ((rEB.winner = "Eagles" ∧ rEB.loser = "Bears") ∨
       (rEB.winner = "Bears" ∧ rEB.loser = "Eagles"))) := by
  refine ⟨(c10 zeroHash trivialRandom "Eagles" "Bears").1, ?_⟩
  exact (c10 zeroHash trivialRandom "Eagles" "Bears").2 rEB (by decide)

/-- Under a decider that always declares the first-named team the winner,
the game loop plays every matchup, records the name pairs in order and
returns the first team of every pair. -/
theorem runMatchups_first (dec : Decider)
    (hdec : ∀ a b, ∃ res, dec a b = Except.ok res ∧ res.winner = a) :
    ∀ ms : List (Team × Team),
      runMatchups dec ms =
        (ms.map (fun p => (p.1.name, p.2.name)), Except.ok (ms.map Prod.fst))
  | [] => by simp [runMatchups]
  | (t1, t2) :: rest => by
    obtain ⟨res, hres, hw⟩ := hdec t1.name t2.name
    simp only [runMatchups, hres]
    rw [runMatchups_first dec hdec rest]
    simp [hw, Except.map]

/-- One successful iteration of the division while loop. -/
theorem runDivisionLoop_step_ok (dec : Decider) (dname : String) (b : Bracket)
    (tc fuel fuel2 : Nat) (tr : List (String × String)) (winners : List Team)
    (b2 : Bracket) (n : Nat)
    (h1 : ¬ tc ≤ 1) (hfu : fuel = fuel2 + 1)
    (hs : runSingleDivisionRound dec b dname = (tr, Except.ok winners))
    (ha : advanceRound b dname winners = Except.ok b2)
    (hn : winners.length = n) :
    runDivisionLoop dec dname b tc fuel =
      (tr ++ (runDivisionLoop dec dname b2 n fuel2).1,
       (runDivisionLoop dec dname b2 n fuel2).2) := by
  subst hn
  subst hfu
  rw [runDivisionLoop]
  simp only [if_neg h1, hs, ha]

/-- An erroring iteration of the division while loop aborts it. -/
theorem runDivisionLoop_step_err (dec : Decider) (dname : String) (b : Bracket)
    (tc fuel fuel2 : Nat) (tr : List (String × String)) (e : PyErr)
    (h1 : ¬ tc ≤ 1) (hfu : fuel = fuel2 + 1)
    (hs : runSingleDivisionRound dec b dname = (tr, Except.error e)) :
    runDivisionLoop dec dname b tc fuel = (tr, Except.error e) := by
  subst hfu
  rw [runDivisionLoop]
  simp only [if_neg h1, hs]

/-- Under a first-team-wins decider, the while loop takes a division of 16
teams covering seeds 1..16 to the single seed-1 team, playing the fifteen
games of `trace16`. -/
theorem divisionLoop16 (dec : Decider)
    (hdec : ∀ a b, ∃ res, dec a b = Except.ok res ∧ res.winner = a)
    (b : Bracket) (dname : String) (d : Division) (f : Nat → Team)
    (hd : alookup dname b.divisions = some d)
    (hlen : d.teams.length = 16)
    (hf : ∀ s, 1 ≤ s → s ≤ 16 → seedToTeam d.teams s = some (f s)) :
    runDivisionLoop dec dname b 16 16 =
      (trace16 f, Except.ok (Bracket.mk (b.divisions.map (updKV dname [f 1])))) := by
  have hup : ∀ w : List Team,
      alookup dname (b.divisions.map (updKV dname w)) = some (Division.mk d.name w) := by
    intro w
    rw [alookup_map_updKV_self, hd]
    rfl
  have hadv : ∀ w prev : List Team,
      advanceRound (Bracket.mk (b.divisions.map (updKV dname prev))) dname w =
        Except.ok (Bracket.mk (b.divisions.map (updKV dname w))) := by
    intro w prev
    simp only [advanceRound, hup prev]
    rw [map_updKV_updKV]
  have hm1 : getDivisionMatchups b dname = Except.ok
      [(f 1, f 16), (f 8, f 9), (f 5, f 12), (f 4, f 13),
       (f 6, f 11), (f 3, f 14), (f 7, f 10), (f 2, f 15)] := by
    have h := mapMatchups_covering d.teams f hf
    simp only [ROUND_ONE_BRACKET, List.map_cons, List.map_nil] at h
    simp [getDivisionMatchups, hd, hlen, ROUND_ONE_BRACKET, h]
  have hs1 : runSingleDivisionRound dec b dname =
      ([((f 1).name, (f 16).name), ((f 8).name, (f 9).name), ((f 5).name, (f 12).name),
        ((f 4).name, (f 13).name), ((f 6).name, (f 11).name), ((f 3).name, (f 14).name),
        ((f 7).name, (f 10).name), ((f 2).name, (f 15).name)],
       Except.ok [f 1, f 8, f 5, f 4, f 6, f 3, f 7, f 2]) := by
    simp [runSingleDivisionRound, hm1, runMatchups_first dec hdec]
  have hb1 : advanceRound b dname [f 1, f 8, f 5, f 4, f 6, f 3, f 7, f 2] =
      Except.ok (Bracket.mk (b.divisions.map
        (updKV dname [f 1, f 8, f 5, f 4, f 6, f 3, f 7, f 2]))) := by
    simp [advanceRound, hd]
  have hm2 : getDivisionMatchups (Bracket.mk (b.divisions.map
      (updKV dname [f 1, f 8, f 5, f 4, f 6, f 3, f 7, f 2]))) dname =
      Except.ok [(f 1, f 8), (f 5, f 4), (f 6, f 3), (f 7, f 2)] := by
    simp [getDivisionMatchups, hup, pairSlots, Except.map]
  have hs2 : runSingleDivisionRound dec (Bracket.mk (b.divisions.map
      (updKV dname [f 1, f 8, f 5, f 4, f 6, f 3, f 7, f 2]))) dname =
      ([((f 1).name, (f 8).name), ((f 5).name, (f 4).name), ((f 6).name, (f 3).name),
        ((f 7).name, (f 2).name)],
       Except.ok [f 1, f 5, f 6, f 7]) := by
    simp [runSingleDivisionRound, hm2, runMatchups_first dec hdec]
  have hm3 : getDivisionMatchups (Bracket.mk (b.divisions.map
      (updKV dname [f 1, f 5, f 6, f 7]))) dname =
      Except.ok [(f 1, f 5), (f 6, f 7)] := by
    simp [getDivisionMatchups, hup, pairSlots, Except.map]
  have hs3 : runSingleDivisionRound dec (Bracket.mk (b.divisions.map
      (updKV dname [f 1, f 5, f 6, f 7]))) dname =
      ([((f 1).name, (f 5).name), ((f 6).name, (f 7).name)],
       Except.ok [f 1, f 6]) := by
    simp [runSingleDivisionRound, hm3, runMatchups_first dec hdec]
  have hm4 : getDivisionMatchups (Bracket.mk (b.divisions.map
      (updKV dname [f 1, f 6]))) dname = Except.ok [(f 1, f 6)] := by
    simp [getDivisionMatchups, hup, pairSlots, Except.map]
  have hs4 : runSingleDivisionRound dec (Bracket.mk (b.divisions.map
      (updKV dname [f 1, f 6]))) dname =
      ([((f 1).name, (f 6).name)], Except.ok [f 1]) := by
    simp [runSingleDivisionRound, hm4, runMatchups_first dec hdec]
  have L4 : runDivisionLoop dec dname (Bracket.mk (b.divisions.map
      (updKV dname [f 1, f 6]))) 2 13 =
      ([((f 1).name, (f 6).name)],
       Except.ok (Bracket.mk (b.divisions.map (updKV dname [f 1])))) := by
    rw [runDivisionLoop_step_ok dec dname _ 2 13 12 _ [f 1] _ 1
      (by norm_num) (by norm_num) hs4 (hadv [f 1] [f 1, f 6]) rfl]
    rw [runDivisionLoop_le dec dname _ 1 12 (Nat.le_refl 1)]
    simp
  have L3 : runDivisionLoop dec dname (Bracket.mk (b.divisions.map
      (updKV dname [f 1, f 5, f 6, f 7]))) 4 14 =
      ([((f 1).name, (f 5).name), ((f 6).name, (f 7).name), ((f 1).name, (f 6).name)],
       Except.ok (Bracket.mk (b.divisions.map (updKV dname [f 1])))) := by
    rw [runDivisionLoop_step_ok dec dname _ 4 14 13 _ [f 1, f 6] _ 2
      (by norm_num) (by norm_num) hs3 (hadv [f 1, f 6] [f 1, f 5, f 6, f 7]) rfl]
    rw [L4]
    simp
  have L2 : runDivisionLoop dec dname (Bracket.mk (b.divisions.map
      (updKV dname [f 1, f 8, f 5, f 4, f 6, f 3, f 7, f 2]))) 8 15 =
      ([((f 1).name, (f 8).name), ((f 5).name, (f 4).name), ((f 6).name, (f 3).name),
        ((f 7).name, (f 2).name), ((f 1).name, (f 5).name), ((f 6).name, (f 7).name),
        ((f 1).name, (f 6).name)],
       Except.ok (Bracket.mk (b.divisions.map (updKV dname [f 1])))) := by
    rw [runDivisionLoop_step_ok dec dname _ 8 15 14 _ [f 1, f 5, f 6, f 7] _ 4
      (by norm_num) (by norm_num) hs2
      (hadv [f 1, f 5, f 6, f 7] [f 1, f 8, f 5, f 4, f 6, f 3, f 7, f 2]) rfl]
    rw [L3]
    simp
  rw [runDivisionLoop_step_ok dec dname b 16 16 15 _
    [f 1, f 8, f 5, f 4, f 6, f 3, f 7, f 2] _ 8
    (by norm_num) (by norm_num) hs1 hb1 rfl]
  rw [L2]
  simp [trace16]

/-- One step of `_run_division_rounds` over a present 16-team division
under a first-team-wins decider: its fifteen games are played, the seed-1
team is appended as region winner, and iteration continues on the advanced
bracket. -/
theorem runDivisionsGo_step16 (dec : Decider)
    (hdec : ∀ a b, ∃ res, dec a b = Except.ok res ∧ res.winner = a)
    (rest : List String) (b : Bracket) (acc : List (String × Team))
    (dname : String) (d : Division) (f : Nat → Team)
    (hd : alookup dname b.divisions = some d)
    (hlen : d.teams.length = 16)
    (hf : ∀ s, 1 ≤ s → s ≤ 16 → seedToTeam d.teams s = some (f s)) :
    runDivisionsGo dec (dname :: rest) b acc =
      (trace16 f ++ (runDivisionsGo dec rest
         (Bracket.mk (b.divisions.map (updKV dname [f 1]))) (acc ++ [(dname, f 1)])).1,
       (runDivisionsGo dec rest
         (Bracket.mk (b.divisions.map (updKV dname [f 1]))) (acc ++ [(dname, f 1)])).2) := by
  have hloop := divisionLoop16 dec hdec b dname d f hd hlen hf
  have hd2 : alookup dname (b.divisions.map (updKV dname [f 1])) =
      some (Division.mk d.name [f 1]) := by
    rw [alookup_map_updKV_self, hd]
    rfl
  simp only [runDivisionsGo, hd, hlen, hloop, hd2]

/-- The Final Four and Championship under a first-team-wins decider: West
beats East, South beats Midwest, and the West champion takes the title in
game three. -/
theorem finalFourAlways (dec : Decider)
    (hdec : ∀ a b, ∃ res, dec a b = Except.ok res ∧ res.winner = a)
    (W E S M : Team) :
    runFinalFourAndChampionship dec
        [("West", W), ("East", E), ("South", S), ("Midwest", M)] =
      ([(W.name, E.name), (S.name, M.name), (W.name, S.name)], Except.ok W.name) := by
  have hms : getFinalFourMatchups [("West", W), ("East", E), ("South", S), ("Midwest", M)] =
      Except.ok [(W, E), (S, M)] := rfl
  obtain ⟨res, hres, hw⟩ := hdec W.name S.name
  simp only [runFinalFourAndChampionship, hms, runMatchups_first dec hdec]
  simp [getChampionshipMatchup, hres, hw]

/-- Claim C3: on any bracket whose four divisions each hold 16 teams
covering seeds 1..16 (`fX s` being division X's team at seed `s`), a
decider that always declares the first-named team the winner is invoked
exactly 63 times (15 per division, 2 Final Four games, 1 Championship) and
the tournament champion is the West division's seed-1 team. -/
theorem c3 (dec : Decider)
    (hdec : ∀ a b, ∃ res, dec a b = Except.ok res ∧ res.winner = a)
    (b : Bracket) (dW dE dS dM : Division) (fW fE fS fM : Nat → Team)
    (hW : alookup "West" b.divisions = some dW)
    (hWlen : dW.teams.length = 16)
    (hWf : ∀ s, 1 ≤ s → s ≤ 16 → seedToTeam dW.teams s = some (fW s))
    (hE : alookup "East" b.divisions = some dE)
    (hElen : dE.teams.length = 16)
    (hEf : ∀ s, 1 ≤ s → s ≤ 16 → seedToTeam dE.teams s = some (fE s))
    (hS : alookup "South" b.divisions = some dS)
    (hSlen : dS.teams.length = 16)
    (hSf : ∀ s, 1 ≤ s → s ≤ 16 → seedToTeam dS.teams s = some (fS s))
    (hM : alookup "Midwest" b.divisions = some dM)
    (hMlen : dM.teams.length = 16)
    (hMf : ∀ s, 1 ≤ s → s ≤ 16 → seedToTeam dM.teams s = some (fM s)) :
    (runTournament dec b).2 = Except.ok ((fW 1).name) ∧
    (runTournament dec b).1.length = 63 := by
  have hE1 : alookup "East" ((b.divisions.map (updKV "West" [fW 1]))) = some dE := by
    rw [alookup_map_updKV_ne "East" "West" _ (by decide)]
    exact hE
  have hS2 : alookup "South" (((b.divisions.map (updKV "West" [fW 1])).map
      (updKV "East" [fE 1]))) = some dS := by
    rw [alookup_map_updKV_ne "South" "East" _ (by decide),
      alookup_map_updKV_ne "South" "West" _ (by decide)]
    exact hS
  have hM3 : alookup "Midwest" ((((b.divisions.map (updKV "West" [fW 1])).map
      (updKV "East" [fE 1])).map (updKV "South" [fS 1]))) = some dM := by
    rw [alookup_map_updKV_ne "Midwest" "South" _ (by decide),
      alookup_map_updKV_ne "Midwest" "East" _ (by decide),
      alookup_map_updKV_ne "Midwest" "West" _ (by decide)]
    exact hM
  have hgoW := runDivisionsGo_step16 dec hdec ["East", "South", "Midwest"] b []
    "West" dW fW hW hWlen hWf
  have hgoE := runDivisionsGo_step16 dec hdec ["South", "Midwest"]
    (Bracket.mk (b.divisions.map (updKV "West" [fW 1]))) [("West", fW 1)]
    "East" dE fE hE1 hElen hEf
  have hgoS := runDivisionsGo_step16 dec hdec ["Midwest"]
    (Bracket.mk ((b.divisions.map (updKV "West" [fW 1])).map (updKV "East" [fE 1])))
    [("West", fW 1), ("East", fE 1)]
    "South" dS fS hS2 hSlen hSf
  have hgoM := runDivisionsGo_step16 dec hdec []
    (Bracket.mk (((b.divisions.map (updKV "West" [fW 1])).map
      (updKV "East" [fE 1])).map (updKV "South" [fS 1])))
    [("West", fW 1), ("East", fE 1), ("South", fS 1)]
    "Midwest" dM fM hM3 hMlen hMf
  have hgo : runDivisionsGo dec DIVISION_ORDER b [] =
      (trace16 fW ++ (trace16 fE ++ (trace16 fS ++ (trace16 fM ++ []))),
       Except.ok
        (Bracket.mk ((((b.divisions.map (updKV "West" [fW 1])).map
          (updKV "East" [fE 1])).map (updKV "South" [fS 1])).map (updKV "Midwest" [fM 1])),
         [("West", fW 1), ("East", fE 1), ("South", fS 1), ("Midwest", fM 1)])) := by
    show runDivisionsGo dec ("West" :: ["East", "South", "Midwest"]) b [] = _
    rw [hgoW]
    try dsimp only
    simp only [List.nil_append, List.cons_append]
    rw [hgoE]
    try dsimp only
    simp only [List.nil_append, List.cons_append]
    rw [hgoS]
    try dsimp only
    simp only [List.nil_append, List.cons_append]
    rw [hgoM]
    try dsimp only
    simp [runDivisionsGo]
  have hff := finalFourAlways dec hdec (fW 1) (fE 1) (fS 1) (fM 1)
  have hrun : runTournament dec b =
      (trace16 fW ++ (trace16 fE ++ (trace16 fS ++ (trace16 fM ++ []))) ++
        [((fW 1).name, (fE 1).name), ((fS 1).name, (fM 1).name), ((fW 1).name, (fS 1).name)],
       Except.ok ((fW 1).name)) := by
    simp only [runTournament, hgo, hff]
  rw [hrun]
  constructor
  · rfl
  · simp [trace16]

/-- Witness for C3 at the concrete seeded witness bracket. -/
theorem c3_witness :
    (runTournament alwaysFirstDecider bigBracket).2 =
      Except.ok ((wTeamF "W" 1).name) ∧
    (runTournament alwaysFirstDecider bigBracket).1.length = 63 := by
  exact c3 alwaysFirstDecider
    (fun a b => ⟨FightResult.mk a b 99 (a ++ " crushed " ++ b ++ " without breaking a sweat."),
      rfl, rfl⟩)
    bigBracket dWdiv dEdiv dSdiv dMdiv
    (wTeamF "W") (wTeamF "E") (wTeamF "S") (wTeamF "M")
    rfl rfl (mkTeams_cover "W")
    rfl rfl (mkTeams_cover "E")
    rfl rfl (mkTeams_cover "S")
    rfl rfl (mkTeams_cover "M")

/-- Claim C5 counterexample: on a bracket missing the Midwest division the
run does not abort before any game is simulated — the missing division is
silently skipped (`continue`), all 45 games of the three present divisions
are played, and only then does Final Four composition raise `KeyError`. -/
theorem c5_counterexample :
    (runTournament alwaysFirstDecider bracket3Div).1.length = 45 ∧
    (runTournament alwaysFirstDecider bracket3Div).1 ≠ [] := by
  constructor
  · decide
  · decide

/-- Claim C5 amended: a malformed bracket does abort the run with an error,
but not before games are simulated.  With only three divisions, the 45
games of the present divisions are all played and the run aborts with
`KeyError "Midwest"` when the Final Four pairings are composed; with a
15-team East division, the 15 games of the earlier West division are played
and the run aborts with `IndexError` when East's matchups are generated
(before any East game). -/
theorem c5_amended :
    (runTournament alwaysFirstDecider bracket3Div).2 =
      Except.error (PyErr.keyError "Midwest") ∧
    (runTournament alwaysFirstDecider bracket3Div).1.length = 45 ∧
    (runTournament alwaysFirstDecider bracketEast15).2 =
      Except.error PyErr.indexError ∧
    (runTournament alwaysFirstDecider bracketEast15).1.length = 15 := by
  refine ⟨?_, ?_, ?_, ?_⟩
  · decide
  · decide
  · decide
  · decide

end MascotMadness
